import Mathlib

/-!
Verification of the target-scanning core of the NSE stock analysis tool
(`src/utils.py`), shallowly embedded in Lean.

Modelling conventions:
* Calendar dates are integers (day numbers); `(hit_day - start_date).days`
  becomes plain integer subtraction.
* Python floats are modelled as rationals (`Rat`); the comparisons and
  arithmetic in the scanner are exact on the values we reason about.
* A per-symbol pandas frame becomes a chronologically ordered
  `List PricePoint`; the global `stock_data` table becomes a function
  `String → Option (List PricePoint)` (`none` models a `KeyError` for a
  missing ticker column).
* Exceptions caught by the `try/except` in `process_stock_data` become the
  all-`none` result row.
-/

namespace StockScan

/-- One daily bar of the per-symbol series: date, closing price, intraday
high.  Mirrors the `Close` / `High` columns read at `utils.py` lines 34-35. -/
structure PricePoint where
  date : Int
  close : Rat
  high : Rat
deriving DecidableEq, Repr

/-- One output row of `process_stock_data` (`utils.py` line 50 appends
`[return_pct, days_taken, start_price, target_price]`).  The field
`hit_date` carries the `hit_day` computed at line 39: the Python code drops
it from the appended row, but it is the date the scan found and determines
the other optional fields, so the embedding keeps it to state the spec's
`hit_date` properties.  It is `some` exactly on the success branch. -/
structure ScanResult where
  return_pct : Option Rat
  days_taken : Option Int
  entry_price : Option Rat
  target_price : Option Rat
  hit_date : Option Int
deriving DecidableEq, Repr

/-- `utils.py` line 53: `df['target_met'] = df['return_pct'].notna()`. -/
def ScanResult.target_met (r : ScanResult) : Bool :=
  r.return_pct.isSome

/-- The all-absent row produced by the `except` branch (`utils.py` line 48). -/
def unresolvedRow : ScanResult :=
  ⟨none, none, none, none, none⟩

/-- `data.loc[start_date, 'Close']` (`utils.py` line 34): exact-date lookup
of the closing price; `none` models the `KeyError` when the date is not in
the index. -/
def lookupClose (data : List PricePoint) (d : Int) : Option Rat :=
  (data.find? (fun p => decide (p.date = d))).map (fun p => p.close)

/-- `data.loc[start_date : start_date + Timedelta(days=max_days), 'High']`
(`utils.py` line 35): the inclusive label slice over a sorted date index,
i.e. the bars whose date lies in `[d, d + max_days]`. -/
def windowSlice (data : List PricePoint) (d : Int) (max_days : Nat) : List PricePoint :=
  data.filter (fun p => decide (d ≤ p.date ∧ p.date ≤ d + (max_days : Int)))

/-- `(high_prices >= target_price).idxmax()` (`utils.py` line 39): the first
bar whose high reaches the target; when no bar qualifies, `idxmax` of an
all-`False` boolean series returns the first index, and on an empty series
it raises (modelled by `none`, which the caller's `except` turns into the
unresolved row). -/
def hitDayOf (w : List PricePoint) (target_price : Rat) : Option PricePoint :=
  match w.find? (fun p => decide (target_price ≤ p.high)) with
  | some p => some p
  | none => w.head?

/-- `target_price = start_price * (1 + target_return / 100)`
(`utils.py` line 38). -/
def targetPriceOf (start_price target_return : Rat) : Rat :=
  start_price * (1 + target_return / 100)

/-- The body of the `try` block of `process_stock_data` (`utils.py` lines
33-48) for one observation, given the per-symbol series already extracted
from the fetched table. -/
def scanSeries (data : List PricePoint) (start_date : Int) (target_return : Rat)
    (max_days : Nat) : ScanResult :=
  match lookupClose data start_date with
  | none => unresolvedRow
  | some start_price =>
    match hitDayOf (windowSlice data start_date max_days)
        (targetPriceOf start_price target_return) with
    | none => unresolvedRow
    | some p =>
      if targetPriceOf start_price target_return ≤ p.high then
        ⟨some ((p.high - start_price) / start_price * 100),
         some (p.date - start_date),
         some start_price,
         some (targetPriceOf start_price target_return),
         some p.date⟩
      else
        -- line 45: `return_pct, days_taken, target_price = None, None, None`
        -- (note the code also nulls `target_price` here, keeping only
        -- `start_price`)
        ⟨none, none, some start_price, none, none⟩

/-- One iteration of the loop at `utils.py` lines 31-50: look up the
`f"{symbol}.NS"` column of the fetched table, then run the `try` body; a
missing ticker raises `KeyError`, caught at line 47. -/
def scan (stock_data : String → Option (List PricePoint)) (symbol : String)
    (start_date : Int) (target_return : Rat) (max_days : Nat) : ScanResult :=
  match stock_data (symbol ++ ".NS") with
  | none => unresolvedRow
  | some data => scanSeries data start_date target_return max_days

/-- The loop of `process_stock_data` (`utils.py` lines 25-55) over the
`(symbol, date)` rows of the input frame, producing one result row per
observation in input order.  `min_days` appears in the Python signature
(line 25) but is never referenced in the body. -/
def process_stock_data (stock_data : String → Option (List PricePoint))
    (target_return : Rat) (min_days : Int) (max_days : Nat) :
    List (String × Int) → List ScanResult
  | [] => []
  | (symbol, d) :: rest =>
      scan stock_data symbol d target_return max_days ::
        process_stock_data stock_data target_return min_days max_days rest

/-- The date span `fetch_stock_data` requests from the provider
(`utils.py` lines 17-18): `start_date = min(start_dates)` and
`end_date = start_date + Timedelta(days=max_days)`; `none` models the
`ValueError` of `min` on an empty sequence. -/
def fetch_stock_data_span (start_dates : List Int) (max_days : Nat) :
    Option (Int × Int) :=
  start_dates.min?.map (fun s => (s, s + (max_days : Int)))

/-! ### Helper lemmas -/

/-- Membership in the label slice `[d, d + max_days]`. -/
lemma mem_windowSlice {data : List PricePoint} {d : Int} {md : Nat} {q : PricePoint} :
    q ∈ windowSlice data d md ↔ q ∈ data ∧ d ≤ q.date ∧ q.date ≤ d + (md : Int) := by
  simp [windowSlice, List.mem_filter]

lemma head?_mem {α : Type} {l : List α} {a : α} (h : l.head? = some a) : a ∈ l := by
  cases l <;> simp_all

/-- A resolved entry date contributes its own bar to the window, so the
window slice is never empty when the entry price resolves. -/
lemma exists_entry_mem_windowSlice {data : List PricePoint} {d : Int} (md : Nat) {ep : Rat}
    (h : lookupClose data d = some ep) :
    ∃ p0 ∈ windowSlice data d md, p0.date = d := by
  obtain ⟨p0, hfind, _⟩ := Option.map_eq_some'.mp h
  have hmem : p0 ∈ data := List.mem_of_find?_eq_some hfind
  have hdate : p0.date = d := by
    have := List.find?_some hfind
    simpa using this
  refine ⟨p0, mem_windowSlice.mpr ⟨hmem, ?_, ?_⟩, hdate⟩
  · omega
  · have : (0 : Int) ≤ (md : Int) := Int.ofNat_nonneg md
    omega

/-- In a chronologically sorted list, every element dated strictly before
the bar located by `find?` fails the predicate. -/
lemma find?_earliest {pred : PricePoint → Bool} {l : List PricePoint}
    (hsort : l.Pairwise (fun p q => p.date < q.date)) {a : PricePoint}
    (h : l.find? pred = some a) :
    ∀ x ∈ l, x.date < a.date → pred x = false := by
  induction l with
  | nil => simp at h
  | cons b t ih =>
    rw [List.pairwise_cons] at hsort
    by_cases hb : pred b
    · rw [List.find?_cons_of_pos _ hb] at h
      injection h with h
      subst h
      intro x hx hlt
      rcases List.mem_cons.mp hx with rfl | hxt
      · exact absurd hlt (lt_irrefl _)
      · have := hsort.1 x hxt
        omega
    · rw [List.find?_cons_of_neg _ hb] at h
      intro x hx hlt
      rcases List.mem_cons.mp hx with rfl | hxt
      · simpa using hb
      · exact ih hsort.2 h x hxt hlt

/-- `find?` succeeds as soon as some member satisfies the predicate. -/
lemma exists_find?_of_mem (pred : PricePoint → Bool) {l : List PricePoint} {x : PricePoint}
    (hx : x ∈ l) (hpx : pred x = true) :
    ∃ y, l.find? pred = some y ∧ pred y = true := by
  induction l with
  | nil => simp at hx
  | cons b t ih =>
    by_cases hb : pred b
    · exact ⟨b, List.find?_cons_of_pos _ hb, hb⟩
    · rcases List.mem_cons.mp hx with rfl | hxt
      · exact absurd hpx hb
      · obtain ⟨y, hy, hpy⟩ := ih hxt
        exact ⟨y, by rw [List.find?_cons_of_neg _ hb]; exact hy, hpy⟩

/-- Shape of a successful scan: `target_met = true` forces the `idxmax` at
`utils.py` line 39 to have located a qualifying bar `p`, and determines
every field of the output row. -/
lemma scanSeries_met_shape {data : List PricePoint} {d : Int} {tr : Rat} {md : Nat}
    (h : (scanSeries data d tr md).target_met = true) :
    ∃ ep p,
      lookupClose data d = some ep ∧
      (windowSlice data d md).find?
        (fun q => decide (targetPriceOf ep tr ≤ q.high)) = some p ∧
      targetPriceOf ep tr ≤ p.high ∧
      scanSeries data d tr md =
        ⟨some ((p.high - ep) / ep * 100), some (p.date - d), some ep,
         some (targetPriceOf ep tr), some p.date⟩ := by
  unfold scanSeries at h
  cases hl : lookupClose data d with
  | none =>
    rw [hl] at h
    simp [unresolvedRow, ScanResult.target_met] at h
  | some ep =>
    rw [hl] at h
    dsimp only at h
    cases hh : hitDayOf (windowSlice data d md) (targetPriceOf ep tr) with
    | none =>
      rw [hh] at h
      simp [unresolvedRow, ScanResult.target_met] at h
    | some p =>
      rw [hh] at h
      dsimp only at h
      by_cases hc : targetPriceOf ep tr ≤ p.high
      · refine ⟨ep, p, rfl, ?_, hc, ?_⟩
        · unfold hitDayOf at hh
          cases hf : (windowSlice data d md).find?
              (fun q => decide (targetPriceOf ep tr ≤ q.high)) with
          | some q =>
            rw [hf] at hh
            dsimp only at hh
            injection hh with hq
            rw [hq]
          | none =>
            rw [hf] at hh
            dsimp only at hh
            have hmem := head?_mem hh
            have := List.find?_eq_none.mp hf p hmem
            simp [hc] at this
        · simp [scanSeries, hl, hh, hc]
      · rw [if_neg hc] at h
        simp [ScanResult.target_met] at h

/-- Shape of a resolved-but-unmet scan: if the entry resolves and no bar in
the window reaches the target, only `start_price` survives into the result
row (line 45 also nulls `target_price`). -/
lemma scanSeries_not_met_shape {data : List PricePoint} {d : Int} {tr : Rat} {md : Nat}
    {ep : Rat} (hl : lookupClose data d = some ep)
    (hnone : ∀ q ∈ windowSlice data d md, q.high < targetPriceOf ep tr) :
    scanSeries data d tr md = ⟨none, none, some ep, none, none⟩ := by
  have hf : (windowSlice data d md).find?
      (fun q => decide (targetPriceOf ep tr ≤ q.high)) = none := by
    rw [List.find?_eq_none]
    intro q hq
    simpa using not_le.mpr (hnone q hq)
  obtain ⟨p0, hp0, _⟩ := exists_entry_mem_windowSlice md hl
  cases hw : (windowSlice data d md).head? with
  | none =>
    rw [List.head?_eq_none_iff] at hw
    rw [hw] at hp0
    simp at hp0
  | some h0 =>
    have hmem := head?_mem hw
    have hlt : ¬ targetPriceOf ep tr ≤ h0.high := not_le.mpr (hnone h0 hmem)
    simp [scanSeries, hl, hitDayOf, hf, hw, hlt]

/-! ### Claim theorems -/

/-- Claim C1 (code bug evidence): `fetch_stock_data` computes both ends of
the requested span from `min(start_dates)` (`utils.py` lines 17-18), so
with observations entering on day 0 and day 10 and `max_days = 5` it
requests the span `[0, 5]`; the day-10 observation's forward window
`[10, 15]` — indeed even its entry date 10 — lies outside the requested
span, contradicting the claimed span of earliest to latest entry date plus
`max_days`. -/
theorem fetch_span_ignores_later_entry_dates :
    fetch_stock_data_span [0, 10] 5 = some (0, 5) ∧
    ¬ ((10 : Int) + 5 ≤ 5) ∧ ¬ ((10 : Int) ≤ 5) := by
  refine ⟨?_, by decide, by decide⟩
  rfl

/-- Claim C2 (counterexample): a series whose entry resolves at price 100
but whose only window high is 101 never reaches the 3% target 103; the
result row keeps `entry_price = 100` yet has `target_price` absent
(`utils.py` line 45 nulls it), contradicting the claim that `target_price`
is still present. -/
theorem scan_not_met_target_price_absent_cex :
    (scanSeries [⟨0, 100, 101⟩] 0 3 5).target_met = false ∧
    (scanSeries [⟨0, 100, 101⟩] 0 3 5).entry_price = some 100 ∧
    (scanSeries [⟨0, 100, 101⟩] 0 3 5).target_price = none := by
  norm_num [scanSeries, ScanResult.target_met, lookupClose, windowSlice, hitDayOf,
    targetPriceOf, List.find?, List.filter]

/-- Claim C2 (amended): when the entry price resolves and no bar in the
scan window has a high reaching the target price, the scan returns
`target_met = false` with `entry_price` present and `target_price`,
`hit_date`, `days_taken`, `return_pct` all absent. -/
theorem scan_not_met_fields (data : List PricePoint) (start_date : Int)
    (target_return : Rat) (max_days : Nat) (ep : Rat)
    (hl : lookupClose data start_date = some ep)
    (hnone : ∀ q ∈ windowSlice data start_date max_days,
      q.high < targetPriceOf ep target_return) :
    (scanSeries data start_date target_return max_days).target_met = false ∧
    scanSeries data start_date target_return max_days =
      ⟨none, none, some ep, none, none⟩ := by
  have h := scanSeries_not_met_shape hl hnone
  exact ⟨by rw [h]; rfl, h⟩

theorem scan_not_met_fields_witness :
    (lookupClose [⟨0, 100, 101⟩] 0 = some 100 ∧
      ∀ q ∈ windowSlice [⟨0, 100, 101⟩] 0 5, q.high < targetPriceOf 100 3) ∧
    ((scanSeries [⟨0, 100, 101⟩] 0 3 5).target_met = false ∧
      scanSeries [⟨0, 100, 101⟩] 0 3 5 = ⟨none, none, some 100, none, none⟩) := by
  have h1 : lookupClose [⟨0, 100, 101⟩] 0 = some 100 := by
    norm_num [lookupClose, List.find?]
  have h2 : ∀ q ∈ windowSlice [⟨0, 100, 101⟩] 0 5, q.high < targetPriceOf 100 3 := by
    intro q hq
    rw [mem_windowSlice] at hq
    obtain rfl := List.mem_singleton.mp hq.1
    norm_num [targetPriceOf]
  exact ⟨⟨h1, h2⟩, scan_not_met_fields [⟨0, 100, 101⟩] 0 3 5 100 h1 h2⟩

/-- Claim C3: whenever the scan reports `target_met = true`, the hit date
lies in `[entry_date, entry_date + max_days]`, the bar at the hit date has
a high reaching `target_price = entry_price * (1 + target_return / 100)`,
and, for a chronologically sorted series, no earlier-dated bar in the scan
window reaches the target (earliest-hit invariant). -/
theorem scan_met_earliest_hit (data : List PricePoint) (start_date : Int)
    (target_return : Rat) (max_days : Nat)
    (hsort : data.Pairwise (fun p q => p.date < q.date))
    (hmet : (scanSeries data start_date target_return max_days).target_met = true) :
    ∃ ep hd,
      (scanSeries data start_date target_return max_days).entry_price = some ep ∧
      (scanSeries data start_date target_return max_days).target_price =
        some (targetPriceOf ep target_return) ∧
      (scanSeries data start_date target_return max_days).hit_date = some hd ∧
      start_date ≤ hd ∧ hd ≤ start_date + (max_days : Int) ∧
      (∃ q ∈ windowSlice data start_date max_days,
        q.date = hd ∧ targetPriceOf ep target_return ≤ q.high) ∧
      ∀ q ∈ windowSlice data start_date max_days,
        q.date < hd → q.high < targetPriceOf ep target_return := by
  obtain ⟨ep, p, hl, hfind, hc, heq⟩ := scanSeries_met_shape hmet
  have hpw : p ∈ windowSlice data start_date max_days :=
    List.mem_of_find?_eq_some hfind
  have hbounds := mem_windowSlice.mp hpw
  have hwsort : (windowSlice data start_date max_days).Pairwise
      (fun p q => p.date < q.date) := hsort.filter _
  refine ⟨ep, p.date, by rw [heq], by rw [heq], by rw [heq],
    hbounds.2.1, hbounds.2.2, ⟨p, hpw, rfl, hc⟩, ?_⟩
  intro q hq hlt
  have := find?_earliest hwsort hfind q hq hlt
  rw [← not_le]
  simpa using this

theorem scan_met_earliest_hit_witness :
    (List.Pairwise (fun p q => p.date < q.date)
        ([⟨0, 100, 101⟩, ⟨1, 102, 104⟩] : List PricePoint) ∧
      (scanSeries [⟨0, 100, 101⟩, ⟨1, 102, 104⟩] 0 3 5).target_met = true) ∧
    (∃ ep hd,
      (scanSeries [⟨0, 100, 101⟩, ⟨1, 102, 104⟩] 0 3 5).entry_price = some ep ∧
      (scanSeries [⟨0, 100, 101⟩, ⟨1, 102, 104⟩] 0 3 5).target_price =
        some (targetPriceOf ep 3) ∧
      (scanSeries [⟨0, 100, 101⟩, ⟨1, 102, 104⟩] 0 3 5).hit_date = some hd ∧
      (0 : Int) ≤ hd ∧ hd ≤ (0 : Int) + ((5 : Nat) : Int) ∧
      (∃ q ∈ windowSlice [⟨0, 100, 101⟩, ⟨1, 102, 104⟩] 0 5,
        q.date = hd ∧ targetPriceOf ep 3 ≤ q.high) ∧
      ∀ q ∈ windowSlice [⟨0, 100, 101⟩, ⟨1, 102, 104⟩] 0 5,
        q.date < hd → q.high < targetPriceOf ep 3) := by
  have hsort : List.Pairwise (fun p q => p.date < q.date)
      [(⟨0, 100, 101⟩ : PricePoint), ⟨1, 102, 104⟩] := by decide
  have hmet : (scanSeries [⟨0, 100, 101⟩, ⟨1, 102, 104⟩] 0 3 5).target_met = true := by
    norm_num [scanSeries, ScanResult.target_met, lookupClose, windowSlice, hitDayOf,
      targetPriceOf, List.find?, List.filter]
  exact ⟨⟨hsort, hmet⟩,
    scan_met_earliest_hit [⟨0, 100, 101⟩, ⟨1, 102, 104⟩] 0 3 5 hsort hmet⟩

/-- Claim C4: when the symbol is missing from the fetched table, or its
series has no bar at the entry date, the scan returns the all-absent row
with `target_met = false`; being a total function, it raises nothing and
the failure stays local to the row. -/
theorem scan_unresolved_all_absent (stock_data : String → Option (List PricePoint))
    (symbol : String) (start_date : Int) (target_return : Rat) (max_days : Nat)
    (h : stock_data (symbol ++ ".NS") = none ∨
      ∃ data, stock_data (symbol ++ ".NS") = some data ∧
        lookupClose data start_date = none) :
    scan stock_data symbol start_date target_return max_days = unresolvedRow ∧
    (scan stock_data symbol start_date target_return max_days).target_met = false := by
  rcases h with h | ⟨data, hsd, hl⟩
  · refine ⟨by simp [scan, h], ?_⟩
    simp [scan, h, unresolvedRow, ScanResult.target_met]
  · refine ⟨by simp [scan, hsd, scanSeries, hl], ?_⟩
    simp [scan, hsd, scanSeries, hl, unresolvedRow, ScanResult.target_met]

theorem scan_unresolved_all_absent_witness :
    ((fun _ : String => (none : Option (List PricePoint))) ("TCS" ++ ".NS") = none ∨
      ∃ data, (fun _ : String => (none : Option (List PricePoint))) ("TCS" ++ ".NS") =
          some data ∧ lookupClose data 0 = none) ∧
    (scan (fun _ => none) "TCS" 0 3 5 = unresolvedRow ∧
      (scan (fun _ => none) "TCS" 0 3 5).target_met = false) :=
  ⟨Or.inl rfl, scan_unresolved_all_absent (fun _ => none) "TCS" 0 3 5 (Or.inl rfl)⟩

/-- Claim C5: for every result the scan produces, `target_met = true`
exactly when the hit date, the days taken and the achieved return are all
present. -/
theorem target_met_iff_optional_fields_present
    (stock_data : String → Option (List PricePoint)) (symbol : String)
    (start_date : Int) (target_return : Rat) (max_days : Nat) :
    (scan stock_data symbol start_date target_return max_days).target_met = true ↔
      ((scan stock_data symbol start_date target_return max_days).hit_date.isSome ∧
        (scan stock_data symbol start_date target_return max_days).days_taken.isSome ∧
        (scan stock_data symbol start_date target_return max_days).return_pct.isSome) := by
  unfold scan
  cases hsd : stock_data (symbol ++ ".NS") with
  | none => simp [unresolvedRow, ScanResult.target_met]
  | some data =>
    unfold scanSeries
    cases hl : lookupClose data start_date with
    | none => simp [hl, unresolvedRow, ScanResult.target_met]
    | some ep =>
      cases hh : hitDayOf (windowSlice data start_date max_days)
          (targetPriceOf ep target_return) with
      | none => simp [hl, hh, unresolvedRow, ScanResult.target_met]
      | some p =>
        by_cases hc : targetPriceOf ep target_return ≤ p.high
        · simp [hl, hh, hc, ScanResult.target_met]
        · simp [hl, hh, hc, ScanResult.target_met]

/-- Claim C6 (counterexample): with a negative entry close (-100), raising
the target return from 3% to 60% lowers the target price from -103 to
-160, and a bar with high -150 turns `target_met` from `false` to `true`
— the claimed monotonicity fails as stated. -/
theorem target_met_not_monotone_cex :
    (3 : Rat) ≤ 60 ∧
    (scanSeries [⟨0, -100, -150⟩] 0 3 5).target_met = false ∧
    (scanSeries [⟨0, -100, -150⟩] 0 60 5).target_met = true := by
  refine ⟨by norm_num, ?_, ?_⟩ <;>
    norm_num [scanSeries, ScanResult.target_met, lookupClose, windowSlice, hitDayOf,
      targetPriceOf, List.find?, List.filter, unresolvedRow]

/-- Claim C6 (amended): provided the entry closing price is nonnegative,
increasing `target_return` can only turn `target_met` from `true` to
`false`, never the reverse: if the scan meets the higher target it also
meets the lower one. -/
theorem target_met_monotone_of_nonneg_entry (data : List PricePoint)
    (start_date : Int) (max_days : Nat) (tr tr' : Rat) (ep : Rat)
    (hep : lookupClose data start_date = some ep) (hpos : 0 ≤ ep) (hle : tr ≤ tr')
    (hmet : (scanSeries data start_date tr' max_days).target_met = true) :
    (scanSeries data start_date tr max_days).target_met = true := by
  obtain ⟨ep', p, hl, hfind, hc, heq⟩ := scanSeries_met_shape hmet
  rw [hep] at hl
  injection hl with hl
  subst hl
  have htp : targetPriceOf ep tr ≤ targetPriceOf ep tr' := by
    unfold targetPriceOf
    exact mul_le_mul_of_nonneg_left (by linarith) hpos
  have hple : targetPriceOf ep tr ≤ p.high := le_trans htp hc
  have hpmem : p ∈ windowSlice data start_date max_days :=
    List.mem_of_find?_eq_some hfind
  have hpx : (fun q : PricePoint => decide (targetPriceOf ep tr ≤ q.high)) p = true := by
    simpa using hple
  obtain ⟨y, hy, hpy⟩ :=
    exists_find?_of_mem (fun q : PricePoint => decide (targetPriceOf ep tr ≤ q.high))
      hpmem hpx
  have hyc : targetPriceOf ep tr ≤ y.high := by simpa using hpy
  simp [scanSeries, hep, hitDayOf, hy, hyc, ScanResult.target_met]

theorem target_met_monotone_of_nonneg_entry_witness :
    (lookupClose [⟨0, 100, 101⟩, ⟨1, 102, 104⟩] 0 = some 100 ∧
      (0 : Rat) ≤ 100 ∧ (1 : Rat) ≤ 3 ∧
      (scanSeries [⟨0, 100, 101⟩, ⟨1, 102, 104⟩] 0 3 5).target_met = true) ∧
    (scanSeries [⟨0, 100, 101⟩, ⟨1, 102, 104⟩] 0 1 5).target_met = true := by
  have h1 : lookupClose [⟨0, 100, 101⟩, ⟨1, 102, 104⟩] 0 = some 100 := by
    norm_num [lookupClose, List.find?]
  have h2 : (scanSeries [⟨0, 100, 101⟩, ⟨1, 102, 104⟩] 0 3 5).target_met = true := by
    norm_num [scanSeries, ScanResult.target_met, lookupClose, windowSlice, hitDayOf,
      targetPriceOf, List.find?, List.filter]
  exact ⟨⟨h1, by norm_num, by norm_num, h2⟩,
    target_met_monotone_of_nonneg_entry [⟨0, 100, 101⟩, ⟨1, 102, 104⟩] 0 5 1 3 100
      h1 (by norm_num) (by norm_num) h2⟩

/-- Claim C7: `min_days` is accepted by `process_stock_data` (`utils.py`
line 25) but never read: two runs differing only in `min_days` produce
identical result rows for every input. -/
theorem process_independent_of_min_days
    (stock_data : String → Option (List PricePoint)) (target_return : Rat)
    (max_days : Nat) (min_days min_days' : Int) (rows : List (String × Int)) :
    process_stock_data stock_data target_return min_days max_days rows =
      process_stock_data stock_data target_return min_days' max_days rows := by
  induction rows with
  | nil => rfl
  | cons r rest ih =>
    cases r with
    | mk s d => simp [process_stock_data, ih]

/-- Claim C8: the batch loop returns exactly one result row per
observation, in input order: the output has the input's length and its
`i`-th row is the scan of the `i`-th observation, so nothing is dropped or
reordered and duplicate observations are scanned independently. -/
theorem process_preserves_length_and_order
    (stock_data : String → Option (List PricePoint)) (target_return : Rat)
    (min_days : Int) (max_days : Nat) (rows : List (String × Int)) :
    (process_stock_data stock_data target_return min_days max_days rows).length =
      rows.length ∧
    ∀ i : Nat,
      (process_stock_data stock_data target_return min_days max_days rows)[i]? =
        (rows[i]?).map (fun r => scan stock_data r.1 r.2 target_return max_days) := by
  induction rows with
  | nil => exact ⟨rfl, fun i => by simp [process_stock_data]⟩
  | cons r rest ih =>
    cases r with
    | mk s d =>
      refine ⟨by simp [process_stock_data, ih.1], ?_⟩
      intro i
      cases i with
      | zero => simp [process_stock_data]
      | succ j => simp [process_stock_data, ih.2 j]

/-- Claim C9: on the spec's worked scenario — entry close 100, 3% target
(target price 103), window highs by day `[101, 102.5, 103.5, 99]` — the
scan meets the target at day 2 with `days_taken = 2` and
`return_pct = 3.5`. -/
theorem scenario_hit_day_two :
    scanSeries [⟨0, 100, 101⟩, ⟨1, 102, 205/2⟩, ⟨2, 103, 207/2⟩, ⟨3, 99, 99⟩] 0 3 6 =
      ⟨some (7/2), some 2, some 100, some 103, some 2⟩ ∧
    (scanSeries [⟨0, 100, 101⟩, ⟨1, 102, 205/2⟩, ⟨2, 103, 207/2⟩, ⟨3, 99, 99⟩]
        0 3 6).target_met = true := by
  have h : scanSeries [⟨0, 100, 101⟩, ⟨1, 102, 205/2⟩, ⟨2, 103, 207/2⟩, ⟨3, 99, 99⟩]
      0 3 6 = ⟨some (7/2), some 2, some 100, some 103, some 2⟩ := by
    norm_num [scanSeries, lookupClose, windowSlice, hitDayOf, targetPriceOf,
      List.find?, List.filter]
  exact ⟨h, by rw [h]; rfl⟩

/-- Claim C10 (counterexample): with a negative entry close (-100) the
target price -103 is met by a high of -50, but the achieved return is
-50%, below the requested 3% — the claimed bound `return_pct ≥
target_return_pct` fails as stated. -/
theorem return_pct_below_target_cex :
    (scanSeries [⟨0, -100, -50⟩] 0 3 5).target_met = true ∧
    (scanSeries [⟨0, -100, -50⟩] 0 3 5).return_pct = some (-50) ∧
    ((-50 : Rat) < 3) := by
  refine ⟨?_, ?_, by norm_num⟩ <;>
    norm_num [scanSeries, ScanResult.target_met, lookupClose, windowSlice, hitDayOf,
      targetPriceOf, List.find?, List.filter]

/-- Claim C10 (amended): for every observation with `target_met = true`,
`days_taken` is a nonnegative integer at most `max_days` — with no side
condition; and whenever the entry price is in addition positive, the
achieved `return_pct` is at least the requested `target_return`. -/
theorem met_days_bounded_and_return_reaches_target (data : List PricePoint)
    (start_date : Int) (target_return : Rat) (max_days : Nat)
    (hmet : (scanSeries data start_date target_return max_days).target_met = true) :
    (∃ n, (scanSeries data start_date target_return max_days).days_taken = some n ∧
      0 ≤ n ∧ n ≤ (max_days : Int)) ∧
    (∀ ep, (scanSeries data start_date target_return max_days).entry_price = some ep →
      0 < ep →
      ∃ rp, (scanSeries data start_date target_return max_days).return_pct = some rp ∧
        target_return ≤ rp) := by
  obtain ⟨ep', p, hl, hfind, hc, heq⟩ := scanSeries_met_shape hmet
  obtain ⟨-, hb1, hb2⟩ := mem_windowSlice.mp (List.mem_of_find?_eq_some hfind)
  constructor
  · exact ⟨p.date - start_date, by rw [heq], by omega, by omega⟩
  · intro ep hep hpos
    rw [heq] at hep
    injection hep with hep
    subst hep
    refine ⟨(p.high - ep') / ep' * 100, by rw [heq], ?_⟩
    unfold targetPriceOf at hc
    rw [div_mul_eq_mul_div, le_div_iff₀ hpos]
    nlinarith [hc, hpos]

theorem met_days_bounded_and_return_reaches_target_witness :
    (scanSeries [⟨0, -100, -50⟩] 0 3 5).target_met = true ∧
    (scanSeries [⟨0, 100, 101⟩, ⟨1, 102, 104⟩] 0 3 5).target_met = true ∧
    ((∃ n, (scanSeries [⟨0, -100, -50⟩] 0 3 5).days_taken = some n ∧
        0 ≤ n ∧ n ≤ ((5 : Nat) : Int)) ∧
      (∀ ep, (scanSeries [⟨0, -100, -50⟩] 0 3 5).entry_price = some ep → 0 < ep →
        ∃ rp, (scanSeries [⟨0, -100, -50⟩] 0 3 5).return_pct = some rp ∧
          (3 : Rat) ≤ rp)) ∧
    ((∃ n, (scanSeries [⟨0, 100, 101⟩, ⟨1, 102, 104⟩] 0 3 5).days_taken = some n ∧
        0 ≤ n ∧ n ≤ ((5 : Nat) : Int)) ∧
      (∀ ep, (scanSeries [⟨0, 100, 101⟩, ⟨1, 102, 104⟩] 0 3 5).entry_price = some ep →
        0 < ep →
        ∃ rp, (scanSeries [⟨0, 100, 101⟩, ⟨1, 102, 104⟩] 0 3 5).return_pct = some rp ∧
          (3 : Rat) ≤ rp)) := by
  have h0 : (scanSeries [⟨0, -100, -50⟩] 0 3 5).target_met = true := by
    norm_num [scanSeries, ScanResult.target_met, lookupClose, windowSlice, hitDayOf,
      targetPriceOf, List.find?, List.filter]
  have h1 : (scanSeries [⟨0, 100, 101⟩, ⟨1, 102, 104⟩] 0 3 5).target_met = true := by
    norm_num [scanSeries, ScanResult.target_met, lookupClose, windowSlice, hitDayOf,
      targetPriceOf, List.find?, List.filter]
  exact ⟨h0, h1,
    met_days_bounded_and_return_reaches_target [⟨0, -100, -50⟩] 0 3 5 h0,
    met_days_bounded_and_return_reaches_target [⟨0, 100, 101⟩, ⟨1, 102, 104⟩] 0 3 5 h1⟩

end StockScan
